import Mathlib

/-!
Verification of the Kisaan-Mitra orchestration core.

Shallow embedding of the program in `src/types.ts` (type declarations plus the
`App` component: `handleGetAdvice`, `handleCancel`, `startRecording`,
`stopRecording`, `handlePlayAudio`, `handleStopAudio`, the live-session
`onmessage` handler) and `src/services/geminiService.ts` (`encode`, `decode`).

The program runs on a single-threaded event loop: every stretch of synchronous
code between two `await` suspension points executes atomically.  We model each
such stretch as one atomic action, and concurrency as interleaving of the
actions of the different asynchronous tasks.
-/

namespace KisaanMitra

/-- `AgentStatus` enum from src/types.ts lines 2-7. -/
inductive AgentStatus
  | idle
  | working
  | done
  | error
deriving DecidableEq, Repr

/-- `AgentType` enum from src/types.ts lines 15-20. -/
inductive AgentType
  | weather
  | soil
  | market
  | planner
deriving DecidableEq, Repr

/-- `PlaybackStatus` from src/types.ts line 22. -/
inductive PlaybackStatus
  | idle
  | buffering
  | playing
  | error
deriving DecidableEq, Repr

/-- Speaker tag of a conversation entry, src/types.ts line 33. -/
inductive Speaker
  | user
  | assistant
deriving DecidableEq, Repr

/-- `ConversationMessage` from src/types.ts lines 32-35. -/
structure ConversationMessage where
  speaker : Speaker
  text : String
deriving DecidableEq, Repr

/-! ## Status tracker data model

The hierarchical `AgentStatuses` of src/types.ts lines 82-97: each of the
three pipelines has a `main` status and named sub-agent (phase) statuses;
the planner is a standalone status.  The sub-agent maps have a fixed closed
key set per pipeline (`initialAgentStatuses`, src/types.ts lines 130-144),
so we represent each map as a structure with one field per key.  The source
key `export` is a reserved word in Lean and is rendered `exportMarkets`. -/

/-- Weather sub-agent statuses: keys `forecast`, `alerts`. -/
structure WeatherSubAgents where
  forecast : AgentStatus
  alerts : AgentStatus
deriving DecidableEq, Repr

/-- Soil sub-agent statuses: keys `nutrients`, `ph_moisture`, `type`. -/
structure SoilSubAgents where
  nutrients : AgentStatus
  ph_moisture : AgentStatus
  type : AgentStatus
deriving DecidableEq, Repr

/-- Market sub-agent statuses: keys `prices`, `export`. -/
structure MarketSubAgents where
  prices : AgentStatus
  exportMarkets : AgentStatus
deriving DecidableEq, Repr

/-- `MainAgentStatus` for the weather pipeline. -/
structure WeatherMainStatus where
  main : AgentStatus
  subAgents : WeatherSubAgents
deriving DecidableEq, Repr

/-- `MainAgentStatus` for the soil pipeline. -/
structure SoilMainStatus where
  main : AgentStatus
  subAgents : SoilSubAgents
deriving DecidableEq, Repr

/-- `MainAgentStatus` for the market pipeline. -/
structure MarketMainStatus where
  main : AgentStatus
  subAgents : MarketSubAgents
deriving DecidableEq, Repr

/-- `AgentStatuses` from src/types.ts lines 92-97. -/
structure AgentStatuses where
  weather : WeatherMainStatus
  soil : SoilMainStatus
  market : MarketMainStatus
  planner : AgentStatus
deriving DecidableEq, Repr

/-- `initialAgentStatuses` from src/types.ts lines 130-144: everything idle. -/
def initialAgentStatuses : AgentStatuses :=
  { weather := { main := .idle, subAgents := { forecast := .idle, alerts := .idle } }
    soil := { main := .idle, subAgents := { nutrients := .idle, ph_moisture := .idle, type := .idle } }
    market := { main := .idle, subAgents := { prices := .idle, exportMarkets := .idle } }
    planner := .idle }

/-! ## Application state touched by an advice request

The React state cells written by `handleGetAdvice` / `handleCancel`
(src/types.ts lines 252-296): the status tracker, the three stored pipeline
results, the derived extreme-weather alert, the final advice, the error
banner and the loading flag.  Result payloads are abstracted as `Nat`
tokens so that distinct fetches are distinguishable. -/
structure AppState where
  agentStatuses : AgentStatuses
  weatherInfo : Option Nat
  soilInfo : Option Nat
  marketInfo : Option Nat
  extremeWeatherAlert : Option Nat
  finalAdvice : Option Nat
  errorBanner : Option Nat
  isLoading : Bool
deriving DecidableEq, Repr

/-- The state before any request: everything null / idle (initial `useState`
values, src/types.ts lines 252-279). -/
def initialAppState : AppState :=
  { agentStatuses := initialAgentStatuses
    weatherInfo := none
    soilInfo := none
    marketInfo := none
    extremeWeatherAlert := none
    finalAdvice := none
    errorBanner := none
    isLoading := false }

/-- Effect of `resetState` (src/types.ts lines 281-290) on the modelled cells:
clear all results, the advice, the error banner, the alert, and restore
`initialAgentStatuses`.  `isLoading` is not touched by `resetState`. -/
def resetStateApp (s : AppState) : AppState :=
  { s with
    agentStatuses := initialAgentStatuses
    weatherInfo := none
    soilInfo := none
    marketInfo := none
    extremeWeatherAlert := none
    finalAdvice := none
    errorBanner := none }

/-- State written by the synchronous prologue of `handleGetAdvice`
(src/types.ts lines 327-336): `setIsLoading(true)`, `resetState()`, then the
bulk update that sets the three pipeline `main` statuses to `working`. -/
def startRequestApp : AppState :=
  { resetStateApp initialAppState with
    isLoading := true
    agentStatuses :=
      { initialAgentStatuses with
        weather := { initialAgentStatuses.weather with main := .working }
        soil := { initialAgentStatuses.soil with main := .working }
        market := { initialAgentStatuses.market with main := .working } } }

/-- State after `handleCancel` (src/types.ts lines 292-296):
`setIsLoading(false)` then `resetState()`.  The result does not depend on the
previous state of the modelled cells. -/
def cancelledApp : AppState :=
  { resetStateApp initialAppState with isLoading := false }

/-- `AgentStatuses` value written by the catch block of `handleGetAdvice`
(src/types.ts lines 431-436): every pipeline, every sub-agent and the
planner set to `error`. -/
def allErrorStatuses : AgentStatuses :=
  { weather := { main := .error, subAgents := { forecast := .error, alerts := .error } }
    soil := { main := .error, subAgents := { nutrients := .error, ph_moisture := .error, type := .error } }
    market := { main := .error, subAgents := { prices := .error, exportMarkets := .error } }
    planner := .error }

/-! ## Atomic continuation segments of `handleGetAdvice`

`handleGetAdvice` (src/types.ts lines 320-443) spawns three pipeline tasks
(`weatherPromise`, `soilPromise`, `marketPromise`) and continues after
`Promise.all`.  Each constructor below is one synchronous stretch between
suspension points.  Every stretch except the prologue begins with
`if (controller.signal.aborted) return` and is therefore guarded by the
request's cancellation token; the guard is applied uniformly by `applyEv`
below. -/
inductive SegAct
  /-- Prologue (lines 323-336): abort the previous request's controller,
  install a fresh controller, `setIsLoading(true)`, `resetState()`, set the
  three pipeline mains to `working`.  Runs unguarded. -/
  | reqInit
  /-- Weather task after `sleep(0)` (line 344): forecast := working. -/
  | wForecastWorking
  /-- Weather task after `getWeatherData` resolves with payload `v`
  (lines 347-348): store the weather info, forecast := done. -/
  | wForecastDone (v : Nat)
  /-- Weather task after `sleep(300)` (lines 352-354): alerts := working and
  store the alert derived from the forecast payload. -/
  | wAlertsWorking (a : Nat)
  /-- Weather task after `sleep(300)` (line 357): alerts := done and
  weather.main := done, in one atomic update. -/
  | wDone
  /-- Soil task after `sleep(100)` (line 364): nutrients := working. -/
  | sNutrientsWorking
  /-- Soil task after `getSoilData` resolves with payload `v` (line 367):
  store the soil info. -/
  | sSetInfo (v : Nat)
  /-- Soil task after `sleep(300)` (line 370): nutrients := done. -/
  | sNutrientsDone
  /-- Soil task after `sleep(300)` (line 374): ph_moisture := working. -/
  | sPhWorking
  /-- Soil task after `sleep(300)` (line 377): ph_moisture := done. -/
  | sPhDone
  /-- Soil task after `sleep(300)` (line 381): type := working. -/
  | sTypeWorking
  /-- Soil task after `sleep(300)` (line 384): type := done and
  soil.main := done, in one atomic update. -/
  | sTypeDone
  /-- Market task after `sleep(200)` (line 392): prices := working. -/
  | mPricesWorking
  /-- Market task after `getMarketData` resolves with payload `v` (line 395):
  store the market info. -/
  | mSetInfo (v : Nat)
  /-- Market task after `sleep(300)` (line 398): prices := done. -/
  | mPricesDone
  /-- Market task after `sleep(300)` (line 402): export := working. -/
  | mExportWorking
  /-- Market task after `sleep(300)` (line 405): export := done and
  market.main := done, in one atomic update. -/
  | mExportDone
  /-- Main continuation after `Promise.all` resolves (line 416):
  planner := working.  The source guard also returns when any pipeline
  produced `null`, which happens exactly when the token was already aborted,
  so the uniform aborted-guard subsumes it. -/
  | plannerWorking
  /-- Main continuation after `getFinalAdvice` resolves with payload `v`
  (lines 419-420): store the final advice, planner := done. -/
  | plannerDoneSet (v : Nat)
  /-- Catch block after the `try` rejects with reason `r` (lines 428-436):
  set the error banner and bulk-set every status to `error`.  The block
  begins with `if (controller.signal.aborted) return` (line 424). -/
  | catchFail (r : Nat)
  /-- Finally block (lines 438-442): `setIsLoading(false)`, itself guarded by
  `if (!controller.signal.aborted)`. -/
  | finallySeg
deriving DecidableEq, Repr

/-- Unguarded effect of one continuation segment on the application state.
Each equation mirrors the `setXxx` calls of the corresponding synchronous
stretch of src/types.ts. -/
def applyAct : SegAct → AppState → AppState
  | .reqInit, _ => startRequestApp
  | .wForecastWorking, s =>
    { s with agentStatuses := { s.agentStatuses with
        weather := { s.agentStatuses.weather with
          subAgents := { s.agentStatuses.weather.subAgents with forecast := .working } } } }
  | .wForecastDone v, s =>
    { s with
      weatherInfo := some v
      agentStatuses := { s.agentStatuses with
        weather := { s.agentStatuses.weather with
          subAgents := { s.agentStatuses.weather.subAgents with forecast := .done } } } }
  | .wAlertsWorking a, s =>
    { s with
      extremeWeatherAlert := some a
      agentStatuses := { s.agentStatuses with
        weather := { s.agentStatuses.weather with
          subAgents := { s.agentStatuses.weather.subAgents with alerts := .working } } } }
  | .wDone, s =>
    { s with agentStatuses := { s.agentStatuses with
        weather := { main := .done
                     subAgents := { s.agentStatuses.weather.subAgents with alerts := .done } } } }
  | .sNutrientsWorking, s =>
    { s with agentStatuses := { s.agentStatuses with
        soil := { s.agentStatuses.soil with
          subAgents := { s.agentStatuses.soil.subAgents with nutrients := .working } } } }
  | .sSetInfo v, s => { s with soilInfo := some v }
  | .sNutrientsDone, s =>
    { s with agentStatuses := { s.agentStatuses with
        soil := { s.agentStatuses.soil with
          subAgents := { s.agentStatuses.soil.subAgents with nutrients := .done } } } }
  | .sPhWorking, s =>
    { s with agentStatuses := { s.agentStatuses with
        soil := { s.agentStatuses.soil with
          subAgents := { s.agentStatuses.soil.subAgents with ph_moisture := .working } } } }
  | .sPhDone, s =>
    { s with agentStatuses := { s.agentStatuses with
        soil := { s.agentStatuses.soil with
          subAgents := { s.agentStatuses.soil.subAgents with ph_moisture := .done } } } }
  | .sTypeWorking, s =>
    { s with agentStatuses := { s.agentStatuses with
        soil := { s.agentStatuses.soil with
          subAgents := { s.agentStatuses.soil.subAgents with type := .working } } } }
  | .sTypeDone, s =>
    { s with agentStatuses := { s.agentStatuses with
        soil := { main := .done
                  subAgents := { s.agentStatuses.soil.subAgents with type := .done } } } }
  | .mPricesWorking, s =>
    { s with agentStatuses := { s.agentStatuses with
        market := { s.agentStatuses.market with
          subAgents := { s.agentStatuses.market.subAgents with prices := .working } } } }
  | .mSetInfo v, s => { s with marketInfo := some v }
  | .mPricesDone, s =>
    { s with agentStatuses := { s.agentStatuses with
        market := { s.agentStatuses.market with
          subAgents := { s.agentStatuses.market.subAgents with prices := .done } } } }
  | .mExportWorking, s =>
    { s with agentStatuses := { s.agentStatuses with
        market := { s.agentStatuses.market with
          subAgents := { s.agentStatuses.market.subAgents with exportMarkets := .working } } } }
  | .mExportDone, s =>
    { s with agentStatuses := { s.agentStatuses with
        market := { main := .done
                    subAgents := { s.agentStatuses.market.subAgents with exportMarkets := .done } } } }
  | .plannerWorking, s =>
    { s with agentStatuses := { s.agentStatuses with planner := .working } }
  | .plannerDoneSet v, s =>
    { s with
      finalAdvice := some v
      agentStatuses := { s.agentStatuses with planner := .done } }
  | .catchFail r, s =>
    { s with errorBanner := some r, agentStatuses := allErrorStatuses }
  | .finallySeg, s => { s with isLoading := false }

/-- Identity of a request's cancellation token.  `A` is the superseded
request, `B` the newer one. -/
inductive Tok
  | A
  | B
deriving DecidableEq, Repr

/-- Global system state: the shared application state plus the aborted flag
of each request's `AbortController` signal. -/
structure Sys where
  app : AppState
  abortedA : Bool
  abortedB : Bool
deriving DecidableEq, Repr

/-- Read a token's aborted flag. -/
def Sys.aborted (s : Sys) : Tok → Bool
  | .A => s.abortedA
  | .B => s.abortedB

/-- Set a token's aborted flag to true (`controller.abort()`). -/
def Sys.abort (s : Sys) : Tok → Sys
  | .A => { s with abortedA := true }
  | .B => { s with abortedB := true }

/-- Scheduler events: one continuation segment of a given request, or a
`handleCancel` invocation against a given request's controller. -/
inductive Ev
  | seg (t : Tok) (a : SegAct)
  | cancel (t : Tok)
deriving DecidableEq, Repr

/-- Semantics of one event.  A `reqInit` segment runs unguarded and aborts
the other request's controller (src/types.ts line 323,
`abortControllerRef.current?.abort()`); every other segment first checks its
own token (`if (controller.signal.aborted) return`) and performs its
mutations only when the token is still valid.  `handleCancel`
(src/types.ts lines 292-296) aborts the targeted controller,
sets `isLoading` false and resets the state. -/
def applyEv (e : Ev) (s : Sys) : Sys :=
  match e with
  | .seg t .reqInit =>
    { (s.abort (match t with | .A => .B | .B => .A)) with app := startRequestApp }
  | .seg t a => if s.aborted t then s else { s with app := applyAct a s.app }
  | .cancel t => { s.abort t with app := cancelledApp }

/-- Run a list of events in order. -/
def runEvs : List Ev → Sys → Sys
  | [], s => s
  | e :: es, s => runEvs es (applyEv e s)

/-- System state at the moment request `A` has just executed its prologue and
no other task has run. -/
def initSysA : Sys := { app := startRequestApp, abortedA := false, abortedB := false }

/-- `zs` is an interleaving of `xs` and `ys` preserving both orders. -/
inductive Interleave : List Ev → List Ev → List Ev → Prop
  | nil : Interleave [] [] []
  | left {x xs ys zs} : Interleave xs ys zs → Interleave (x :: xs) ys (x :: zs)
  | right {y xs ys zs} : Interleave xs ys zs → Interleave xs (y :: ys) (y :: zs)

/-! ## Canonical task schedules of a request

Segment lists of the three pipeline tasks and of the main continuation for a
request whose external calls all succeed, with result payloads `vw`, `vs`,
`vm`, `va`.  The alert stored by the weather task is derived from the
forecast payload (`checkExtremeWeather(result.data)`, line 353), so it is a
function of `vw`; we keep the payload token itself. -/

/-- Segments of `weatherPromise` (src/types.ts lines 341-359). -/
def weatherSegs (vw : Nat) : List SegAct :=
  [.wForecastWorking, .wForecastDone vw, .wAlertsWorking vw, .wDone]

/-- Segments of `soilPromise` (src/types.ts lines 361-387). -/
def soilSegs (vs : Nat) : List SegAct :=
  [.sNutrientsWorking, .sSetInfo vs, .sNutrientsDone, .sPhWorking, .sPhDone,
   .sTypeWorking, .sTypeDone]

/-- Segments of `marketPromise` (src/types.ts lines 389-407). -/
def marketSegs (vm : Nat) : List SegAct :=
  [.mPricesWorking, .mSetInfo vm, .mPricesDone, .mExportWorking, .mExportDone]

/-- Segments of the main continuation after `Promise.all`, success path
(src/types.ts lines 409-421 and the finally block). -/
def tailSegs (va : Nat) : List SegAct :=
  [.plannerWorking, .plannerDoneSet va, .finallySeg]

/-- An event is a continuation of request `A`: one of `A`'s guarded segments.
The prologue `reqInit` is not a continuation — it is the synchronous start of
the request, which runs before the request's own token can possibly be
invalidated. -/
def isAContinuation (e : Ev) : Prop :=
  ∃ a, e = Ev.seg .A a ∧ a ≠ SegAct.reqInit

/-- Event ordering produced when the weather fetch of a request rejects
(reason token 0) while the soil and market fetches are still pending and
later succeed (payload tokens 1 and 2).  The three pipeline tasks start
their first phases; the weather fetch rejects, so `Promise.all` rejects and
the catch block and finally block run; afterwards the still-pending soil and
market continuations resume one by one and run to completion, each of their
token checks passing because the failure path never calls
`controller.abort()`. -/
def failureClobberSchedule : List Ev :=
  [.seg .A .reqInit,
   .seg .A .wForecastWorking,
   .seg .A .sNutrientsWorking,
   .seg .A .mPricesWorking,
   .seg .A (.catchFail 0),
   .seg .A .finallySeg,
   .seg .A (.sSetInfo 1), .seg .A .sNutrientsDone, .seg .A .sPhWorking,
   .seg .A .sPhDone, .seg .A .sTypeWorking, .seg .A .sTypeDone,
   .seg .A (.mSetInfo 2), .seg .A .mPricesDone, .seg .A .mExportWorking,
   .seg .A .mExportDone]

/-- Event ordering of a request in which all three pipeline fetches succeed
(payloads `vw`, `vs`, `vm`) and the final `getFinalAdvice` call rejects with
reason `r`: the three pipelines run to completion, `Promise.all` resolves,
the planner is set to working, the synthesis call rejects, and the catch and
finally blocks run. -/
def synthesisFailureSchedule (vw vs vm r : Nat) : List Ev :=
  .seg .A .reqInit ::
    ((weatherSegs vw).map (Ev.seg .A) ++ (soilSegs vs).map (Ev.seg .A)
      ++ (marketSegs vm).map (Ev.seg .A)
      ++ [.seg .A .plannerWorking, .seg .A (.catchFail r), .seg .A .finallySeg])

/-- System state before any request has started. -/
def idleSys : Sys := { app := initialAppState, abortedA := false, abortedB := false }

/-! ## Reachable states of one request (status-tracker transition system)

A configuration holds the shared system state and the not-yet-executed
segments of the four tasks of one request whose external calls all succeed.
One step executes the next segment of one task (the main continuation can
only proceed once `Promise.all` has resolved, i.e. once all three pipeline
queues are empty — pipelines that return early on an aborted token still
resolve their promise, so exhausting the queues is the right condition), or
invokes `handleCancel`.  This is the event-loop semantics of
`handleGetAdvice` plus `handleCancel` for a single request. -/
structure Conf where
  sys : Sys
  wq : List SegAct
  sq : List SegAct
  mq : List SegAct
  tq : List SegAct
deriving DecidableEq, Repr

/-- One scheduling step of the request's tasks. -/
inductive OrchStep : Conf → Conf → Prop
  | weatherStep (c : Conf) (a : SegAct) (rest : List SegAct) :
      c.wq = a :: rest →
      OrchStep c { c with sys := applyEv (.seg .A a) c.sys, wq := rest }
  | soilStep (c : Conf) (a : SegAct) (rest : List SegAct) :
      c.sq = a :: rest →
      OrchStep c { c with sys := applyEv (.seg .A a) c.sys, sq := rest }
  | marketStep (c : Conf) (a : SegAct) (rest : List SegAct) :
      c.mq = a :: rest →
      OrchStep c { c with sys := applyEv (.seg .A a) c.sys, mq := rest }
  | tailStep (c : Conf) (a : SegAct) (rest : List SegAct) :
      c.wq = [] → c.sq = [] → c.mq = [] → c.tq = a :: rest →
      OrchStep c { c with sys := applyEv (.seg .A a) c.sys, tq := rest }
  | cancelStep (c : Conf) :
      OrchStep c { c with sys := applyEv (.cancel .A) c.sys }

/-- Configuration right after the prologue of a request whose four external
calls succeed with payloads `vw`, `vs`, `vm`, `va`. -/
def initConf (vw vs vm va : Nat) : Conf :=
  { sys := initSysA
    wq := weatherSegs vw
    sq := soilSegs vs
    mq := marketSegs vm
    tq := tailSegs va }

/-- Reachability in the request's transition system. -/
def OrchReachable (vw vs vm va : Nat) (c : Conf) : Prop :=
  Relation.ReflTransGen OrchStep (initConf vw vs vm va) c

/-- Weather pipeline component after the first `k` weather segments of a
successful run. -/
def wCompAt : Nat → WeatherMainStatus
  | 0 => { main := .working, subAgents := { forecast := .idle, alerts := .idle } }
  | 1 => { main := .working, subAgents := { forecast := .working, alerts := .idle } }
  | 2 => { main := .working, subAgents := { forecast := .done, alerts := .idle } }
  | 3 => { main := .working, subAgents := { forecast := .done, alerts := .working } }
  | _ => { main := .done, subAgents := { forecast := .done, alerts := .done } }

/-- Soil pipeline component after the first `k` soil segments of a
successful run. -/
def sCompAt : Nat → SoilMainStatus
  | 0 => { main := .working, subAgents := { nutrients := .idle, ph_moisture := .idle, type := .idle } }
  | 1 => { main := .working, subAgents := { nutrients := .working, ph_moisture := .idle, type := .idle } }
  | 2 => { main := .working, subAgents := { nutrients := .working, ph_moisture := .idle, type := .idle } }
  | 3 => { main := .working, subAgents := { nutrients := .done, ph_moisture := .idle, type := .idle } }
  | 4 => { main := .working, subAgents := { nutrients := .done, ph_moisture := .working, type := .idle } }
  | 5 => { main := .working, subAgents := { nutrients := .done, ph_moisture := .done, type := .idle } }
  | 6 => { main := .working, subAgents := { nutrients := .done, ph_moisture := .done, type := .working } }
  | _ => { main := .done, subAgents := { nutrients := .done, ph_moisture := .done, type := .done } }

/-- Market pipeline component after the first `k` market segments of a
successful run. -/
def mCompAt : Nat → MarketMainStatus
  | 0 => { main := .working, subAgents := { prices := .idle, exportMarkets := .idle } }
  | 1 => { main := .working, subAgents := { prices := .working, exportMarkets := .idle } }
  | 2 => { main := .working, subAgents := { prices := .working, exportMarkets := .idle } }
  | 3 => { main := .working, subAgents := { prices := .done, exportMarkets := .idle } }
  | 4 => { main := .working, subAgents := { prices := .done, exportMarkets := .working } }
  | _ => { main := .done, subAgents := { prices := .done, exportMarkets := .done } }

/-- Remaining weather-task queue after the first `k` weather segments. -/
def wqAt (vw : Nat) : Nat → List SegAct
  | 0 => [.wForecastWorking, .wForecastDone vw, .wAlertsWorking vw, .wDone]
  | 1 => [.wForecastDone vw, .wAlertsWorking vw, .wDone]
  | 2 => [.wAlertsWorking vw, .wDone]
  | 3 => [.wDone]
  | _ => []

/-- Remaining soil-task queue after the first `k` soil segments. -/
def sqAt (vs : Nat) : Nat → List SegAct
  | 0 => [.sNutrientsWorking, .sSetInfo vs, .sNutrientsDone, .sPhWorking, .sPhDone,
          .sTypeWorking, .sTypeDone]
  | 1 => [.sSetInfo vs, .sNutrientsDone, .sPhWorking, .sPhDone, .sTypeWorking, .sTypeDone]
  | 2 => [.sNutrientsDone, .sPhWorking, .sPhDone, .sTypeWorking, .sTypeDone]
  | 3 => [.sPhWorking, .sPhDone, .sTypeWorking, .sTypeDone]
  | 4 => [.sPhDone, .sTypeWorking, .sTypeDone]
  | 5 => [.sTypeWorking, .sTypeDone]
  | 6 => [.sTypeDone]
  | _ => []

/-- Remaining market-task queue after the first `k` market segments. -/
def mqAt (vm : Nat) : Nat → List SegAct
  | 0 => [.mPricesWorking, .mSetInfo vm, .mPricesDone, .mExportWorking, .mExportDone]
  | 1 => [.mSetInfo vm, .mPricesDone, .mExportWorking, .mExportDone]
  | 2 => [.mPricesDone, .mExportWorking, .mExportDone]
  | 3 => [.mExportWorking, .mExportDone]
  | 4 => [.mExportDone]
  | _ => []

/-- Remaining main-continuation queue after the first `k` tail segments. -/
def tqAt (va : Nat) : Nat → List SegAct
  | 0 => [.plannerWorking, .plannerDoneSet va, .finallySeg]
  | 1 => [.plannerDoneSet va, .finallySeg]
  | 2 => [.finallySeg]
  | _ => []

/-- Each task queue of a configuration is a suffix of its canonical segment
list. -/
def QueuesWF (vw vs vm va : Nat) (c : Conf) : Prop :=
  (∃ k, k ≤ 4 ∧ c.wq = wqAt vw k) ∧ (∃ k, k ≤ 7 ∧ c.sq = sqAt vs k)
    ∧ (∃ k, k ≤ 5 ∧ c.mq = mqAt vm k) ∧ (∃ k, k ≤ 3 ∧ c.tq = tqAt va k)

/-- Inductive invariant of the request transition system: either the request
was cancelled (token aborted, state reset), or the token is valid and each
pipeline's component of the shared state is exactly determined by how many of
that pipeline's segments have executed. -/
def ConfInv (vw vs vm va : Nat) (c : Conf) : Prop :=
  (c.sys.abortedA = true ∧ c.sys.app = cancelledApp ∧ QueuesWF vw vs vm va c)
  ∨ (c.sys.abortedA = false
     ∧ (∃ k, k ≤ 4 ∧ c.wq = wqAt vw k ∧ c.sys.app.agentStatuses.weather = wCompAt k)
     ∧ (∃ k, k ≤ 7 ∧ c.sq = sqAt vs k ∧ c.sys.app.agentStatuses.soil = sCompAt k)
     ∧ (∃ k, k ≤ 5 ∧ c.mq = mqAt vm k ∧ c.sys.app.agentStatuses.market = mCompAt k)
     ∧ (∃ k, k ≤ 3 ∧ c.tq = tqAt va k))

/-! ## Model of the claimed derived-main property (spec wording)

`claimedDerivedMain` is written from the spec sentence, not from the source:
main is idle until the first phase starts, working while any phase is
working, done exactly when all phases are done, and error whenever any phase
is error.  It is compared against the source-derived reachable states. -/

/-- Claimed derivation for a two-phase pipeline, from the spec wording. -/
def claimedDerivedMain2 (main p1 p2 : AgentStatus) : Prop :=
  (p1 = .idle ∧ p2 = .idle → main = .idle)
  ∧ (p1 = .working ∨ p2 = .working → main = .working)
  ∧ (main = .done ↔ p1 = .done ∧ p2 = .done)
  ∧ (p1 = .error ∨ p2 = .error → main = .error)

/-- Claimed derivation for a three-phase pipeline, from the spec wording. -/
def claimedDerivedMain3 (main p1 p2 p3 : AgentStatus) : Prop :=
  (p1 = .idle ∧ p2 = .idle ∧ p3 = .idle → main = .idle)
  ∧ (p1 = .working ∨ p2 = .working ∨ p3 = .working → main = .working)
  ∧ (main = .done ↔ p1 = .done ∧ p2 = .done ∧ p3 = .done)
  ∧ (p1 = .error ∨ p2 = .error ∨ p3 = .error → main = .error)

/-- Amended derivation for a two-phase pipeline: the idle clause is dropped
(the prologue sets main to working before any phase starts); the other three
clauses are kept. -/
def amendedDerivedMain2 (main p1 p2 : AgentStatus) : Prop :=
  (p1 = .working ∨ p2 = .working → main = .working)
  ∧ (main = .done ↔ p1 = .done ∧ p2 = .done)
  ∧ (p1 = .error ∨ p2 = .error → main = .error)

/-- Amended derivation for a three-phase pipeline. -/
def amendedDerivedMain3 (main p1 p2 p3 : AgentStatus) : Prop :=
  (p1 = .working ∨ p2 = .working ∨ p3 = .working → main = .working)
  ∧ (main = .done ↔ p1 = .done ∧ p2 = .done ∧ p3 = .done)
  ∧ (p1 = .error ∨ p2 = .error ∨ p3 = .error → main = .error)

instance (main p1 p2 : AgentStatus) : Decidable (claimedDerivedMain2 main p1 p2) := by
  unfold claimedDerivedMain2; infer_instance

instance (main p1 p2 p3 : AgentStatus) : Decidable (claimedDerivedMain3 main p1 p2 p3) := by
  unfold claimedDerivedMain3; infer_instance

instance (main p1 p2 : AgentStatus) : Decidable (amendedDerivedMain2 main p1 p2) := by
  unfold amendedDerivedMain2; infer_instance

instance (main p1 p2 p3 : AgentStatus) : Decidable (amendedDerivedMain3 main p1 p2 p3) := by
  unfold amendedDerivedMain3; infer_instance

/-! ## AudioScheduler

The live-session `onmessage` audio branch (src/types.ts lines 545-558) keeps
a local `nextStartTime`; on each arriving chunk it executes
`nextStartTime = Math.max(nextStartTime, currentTime)`,
`source.start(nextStartTime)`, `nextStartTime += audioBuffer.duration`.
A chunk is modelled as the pair (clock time at arrival, buffer duration);
times are rationals. -/

/-- One `schedule` call: returns the start time assigned to the chunk and the
advanced `nextStartTime`. -/
def scheduleChunk (nextStartTime now dur : ℚ) : ℚ × ℚ :=
  (max nextStartTime now, max nextStartTime now + dur)

/-- Run the scheduler over a list of chunks `(arrival clock time, duration)`
in arrival order.  Returns the list of `(assigned start time, duration)`
pairs and the final `nextStartTime`. -/
def runScheduler (nextStartTime : ℚ) : List (ℚ × ℚ) → List (ℚ × ℚ) × ℚ
  | [] => ([], nextStartTime)
  | (now, dur) :: rest =>
    let startAt := max nextStartTime now
    let r := runScheduler (startAt + dur) rest
    ((startAt, dur) :: r.1, r.2)

/-! ## PlaybackController

`handlePlayAudio` / `handleStopAudio` (src/types.ts lines 612-672).  The
four per-target slots live in `playbackStatuses`; the single playback output
is `activePlaybackSourceRef`, modelled as an optional source identifier.
One `handlePlayAudio(target)` call consists of a synchronous prefix (stop
the current source, set the bulk snapshot with the target buffering) and an
asynchronous continuation that fires when the TTS request resolves
(success: attach the new source and set the slot playing; failure: set the
slot to error). -/

/-- `PlaybackStatuses` from src/types.ts lines 24-29. -/
structure PlaybackStatuses where
  weather : PlaybackStatus
  soil : PlaybackStatus
  market : PlaybackStatus
  planner : PlaybackStatus
deriving DecidableEq, Repr

/-- `initialPlaybackStatuses` from src/types.ts lines 146-151. -/
def initialPlaybackStatuses : PlaybackStatuses :=
  { weather := .idle, soil := .idle, market := .idle, planner := .idle }

/-- Write one slot (`[agentType]: value` computed-key update). -/
def setSlot (t : AgentType) (v : PlaybackStatus) (p : PlaybackStatuses) : PlaybackStatuses :=
  match t with
  | .weather => { p with weather := v }
  | .soil => { p with soil := v }
  | .market => { p with market := v }
  | .planner => { p with planner := v }

/-- Read one slot. -/
def getSlot (t : AgentType) (p : PlaybackStatuses) : PlaybackStatus :=
  match t with
  | .weather => p.weather
  | .soil => p.soil
  | .market => p.market
  | .planner => p.planner

/-- Number of slots currently `playing`. -/
def countPlaying (p : PlaybackStatuses) : Nat :=
  (if p.weather = .playing then 1 else 0) + (if p.soil = .playing then 1 else 0)
    + (if p.market = .playing then 1 else 0) + (if p.planner = .playing then 1 else 0)

/-- Playback-controller state: the slot statuses plus
`activePlaybackSourceRef` (an optional source identifier). -/
structure PlaybackState where
  playbackStatuses : PlaybackStatuses
  activePlaybackSource : Option Nat
deriving DecidableEq, Repr

/-- Synchronous prefix of `handlePlayAudio(agentType, ...)` (src/types.ts
lines 613-627): detach and stop the currently attached source, clear the
ref, then `setPlaybackStatuses` to the initial snapshot with the target at
`buffering`. -/
def handlePlayAudioStart (t : AgentType) (_s : PlaybackState) : PlaybackState :=
  { activePlaybackSource := none
    playbackStatuses := setSlot t .buffering initialPlaybackStatuses }

/-- Continuation of `handlePlayAudio` when the narration request resolves
(src/types.ts lines 641-649, with `src` the fresh buffer source): attach the
new source and set the target slot to `playing`.  The source performs no
check that this play call is still the most recent one. -/
def handlePlayAudioSuccess (t : AgentType) (src : Nat) (s : PlaybackState) : PlaybackState :=
  { activePlaybackSource := some src
    playbackStatuses := setSlot t .playing s.playbackStatuses }

/-- Continuation of `handlePlayAudio` when the request or decode fails
(src/types.ts lines 658-662): set the target slot to `error` and clear the
ref. -/
def handlePlayAudioFailure (t : AgentType) (s : PlaybackState) : PlaybackState :=
  { activePlaybackSource := none
    playbackStatuses := setSlot t .error s.playbackStatuses }

/-- `onended` handler of a source (src/types.ts lines 651-656): only if the
finished source is still the attached one, set the slot back to idle and
clear the ref. -/
def playbackOnEnded (t : AgentType) (src : Nat) (s : PlaybackState) : PlaybackState :=
  if s.activePlaybackSource = some src then
    { activePlaybackSource := none
      playbackStatuses := setSlot t .idle s.playbackStatuses }
  else s

/-- `handleStopAudio` (src/types.ts lines 665-672): detach and stop the
attached source and reset every slot to idle. -/
def handleStopAudio (_s : PlaybackState) : PlaybackState :=
  { activePlaybackSource := none
    playbackStatuses := initialPlaybackStatuses }

/-! ## LiveVoiceSessionController lifecycle

`startRecording` (src/types.ts lines 445-588) and `stopRecording`
(lines 590-603).  `sessionPromiseRef` holds the handle to the most recently
connected session.  `openSessions` is bookkeeping for the verification: the
identifiers of sessions that have been connected and not yet closed — the
source closes a session only inside `stopRecording`, and `startRecording`
never closes or checks for an existing one before connecting. -/
structure RecorderState where
  isRecording : Bool
  isAssistantSpeaking : Bool
  conversation : List ConversationMessage
  sessionPromise : Option Nat
  openSessions : List Nat
deriving DecidableEq, Repr

/-- Initial recorder state (no session ever opened). -/
def initialRecorderState : RecorderState :=
  { isRecording := false
    isAssistantSpeaking := false
    conversation := []
    sessionPromise := none
    openSessions := [] }

/-- `startRecording` along its success path, connecting session `newSession`:
`setIsRecording(true)`, `setConversation([])`, `ai.live.connect(...)`,
`sessionPromiseRef.current = sessionPromise`.  No guard inspects
`isRecording` or `sessionPromiseRef` first, and the previous session (if
any) is neither closed nor tracked any further. -/
def startRecordingModel (newSession : Nat) (s : RecorderState) : RecorderState :=
  { s with
    isRecording := true
    conversation := []
    sessionPromise := some newSession
    openSessions := newSession :: s.openSessions }

/-- `stopRecording`: if a session handle is stored, close that session and
null the ref; in all cases reset the recording and speaking flags. -/
def stopRecordingModel (s : RecorderState) : RecorderState :=
  match s.sessionPromise with
  | some id =>
    { s with
      sessionPromise := none
      openSessions := s.openSessions.erase id
      isRecording := false
      isAssistantSpeaking := false }
  | none => { s with isRecording := false, isAssistantSpeaking := false }

/-! ## Transcript accumulation

The `onmessage` transcript branches (src/types.ts lines 526-543): an
output-transcript delta is appended to the last conversation entry when that
entry is from the assistant, otherwise a fresh assistant entry is pushed;
input deltas behave symmetrically with the user role. -/

/-- Shared reducer of both branches: `prev[prev.length - 1]` is the last
entry; on a speaker match the delta is concatenated onto it
(`prev.slice(0, -1)` plus the updated entry), otherwise a new entry for
`who` is pushed. -/
def transcriptAppend (who : Speaker) (prev : List ConversationMessage) (delta : String) :
    List ConversationMessage :=
  match prev.getLast? with
  | some last =>
    if last.speaker = who then
      prev.dropLast ++ [{ last with text := last.text ++ delta }]
    else
      prev ++ [{ speaker := who, text := delta }]
  | none => prev ++ [{ speaker := who, text := delta }]

/-- Handler of `serverContent.outputTranscription.text` (lines 526-534). -/
def handleOutputTranscription (prev : List ConversationMessage) (delta : String) :
    List ConversationMessage :=
  transcriptAppend .assistant prev delta

/-- Handler of `serverContent.inputTranscription.text` (lines 535-543). -/
def handleInputTranscription (prev : List ConversationMessage) (delta : String) :
    List ConversationMessage :=
  transcriptAppend .user prev delta

/-! ## Tool-call handling

The `message.toolCall` branch of `onmessage` (src/types.ts lines 494-524)
awaits `handleGetAdvice(location)` inside a try/catch and sends tool
responses through the session. -/

/-- Observable completion of `await handleGetAdvice(location)` as seen by the
tool-call handler: the call either returns (with a `FinalAdvice` value, or
`undefined` when the prologue guard `if (!newLocation) return` fires, when
the request was superseded/cancelled, or when a pipeline returned null) or
it throws. -/
inductive AdviceCallResult
  | returned (advice : Option Nat)
  | threw (e : Nat)
deriving DecidableEq, Repr

/-- Payload of a `sendToolResponse` call: the advice summary on success, the
localized apology string on failure. -/
inductive ToolPayload
  | summary (advice : Nat)
  | apology
deriving DecidableEq, Repr

/-- One `sendToolResponse` event with its `functionResponses.id`. -/
structure ToolResponse where
  id : Nat
  payload : ToolPayload
deriving DecidableEq, Repr

/-- Tool responses sent for one `getFarmingAdvice` function call with call id
`fcId` (`fc.id`, optional in the transport API) whose advice call completed
as `res`.  Mirrors src/types.ts lines 502-521: the success send is guarded
by `if (fc.id && advice)`, the catch-path send by `if (fc.id)`. -/
def toolCallResponses (fcId : Option Nat) (res : AdviceCallResult) : List ToolResponse :=
  match res with
  | .returned advice =>
    match fcId, advice with
    | some i, some adv => [{ id := i, payload := .summary adv }]
    | _, _ => []
  | .threw _ =>
    match fcId with
    | some i => [{ id := i, payload := .apology }]
    | none => []

/-- Prologue guard of `handleGetAdvice` (src/types.ts line 321):
`if (!newLocation) return;` — an empty location string makes the call return
`undefined` immediately (an `AdviceCallResult.returned none`) without
running any pipeline and without throwing. -/
def handleGetAdviceImmediateReturn (newLocation : String) : Bool :=
  newLocation = ""

/-! ## Base64 transport encoding

`encode` / `decode` from src/services/geminiService.ts lines 194-211.
`encode` turns a byte array into a binary string (one char per byte via
`String.fromCharCode`) and applies the platform primitive `btoa`; `decode`
applies `atob` and reads the char codes back.  `String.fromCharCode` /
`charCodeAt` are mutually inverse on values below 256, so both functions
reduce to base64 on the byte list.  `btoa` and `atob` are platform
primitives, not repository code; they are modelled from their standard
(RFC 4648) base64 behaviour. -/

/-- The base64 alphabet in index order. -/
def base64Chars : List Char :=
  ['A', 'B', 'C', 'D', 'E', 'F', 'G', 'H', 'I', 'J', 'K', 'L', 'M',
   'N', 'O', 'P', 'Q', 'R', 'S', 'T', 'U', 'V', 'W', 'X', 'Y', 'Z',
   'a', 'b', 'c', 'd', 'e', 'f', 'g', 'h', 'i', 'j', 'k', 'l', 'm',
   'n', 'o', 'p', 'q', 'r', 's', 't', 'u', 'v', 'w', 'x', 'y', 'z',
   '0', '1', '2', '3', '4', '5', '6', '7', '8', '9', '+', '/']

/-- Character for a six-bit group. -/
def sixbitToChar (n : Nat) : Char :=
  base64Chars.getD n 'A'

/-- Six-bit value of an alphabet character. -/
def charToSixbit (c : Char) : Nat :=
  base64Chars.indexOf c

/-- Model of `btoa` on the char-code list of its input string: bytes are
grouped in threes; a final group of one or two bytes is padded with `=`. -/
def btoaModel : List Nat → List Char
  | [] => []
  | [a] => [sixbitToChar (a / 4), sixbitToChar (a % 4 * 16), '=', '=']
  | [a, b] =>
    [sixbitToChar (a / 4), sixbitToChar (a % 4 * 16 + b / 16),
     sixbitToChar (b % 16 * 4), '=']
  | a :: b :: c :: rest =>
    sixbitToChar (a / 4) :: sixbitToChar (a % 4 * 16 + b / 16) ::
      sixbitToChar (b % 16 * 4 + c / 64) :: sixbitToChar (c % 64) :: btoaModel rest

/-- Model of `atob` on well-formed base64: each four-character block yields
three bytes, or one or two bytes when the block carries `=` padding. -/
def atobModel : List Char → List Nat
  | c1 :: c2 :: c3 :: c4 :: rest =>
    if c3 = '=' then
      [charToSixbit c1 * 4 + charToSixbit c2 / 16]
    else if c4 = '=' then
      [charToSixbit c1 * 4 + charToSixbit c2 / 16,
       charToSixbit c2 % 16 * 16 + charToSixbit c3 / 4]
    else
      (charToSixbit c1 * 4 + charToSixbit c2 / 16) ::
        (charToSixbit c2 % 16 * 16 + charToSixbit c3 / 4) ::
        (charToSixbit c3 % 4 * 64 + charToSixbit c4) :: atobModel rest
  | _ => []

/-- `encode` from src/services/geminiService.ts lines 194-201, on the byte
list (the intermediate binary string is the same list as char codes). -/
def encode (bytes : List Nat) : List Char :=
  btoaModel bytes

/-- `decode` from src/services/geminiService.ts lines 203-211, producing the
byte list read back from the decoded binary string. -/
def decode (base64 : List Char) : List Nat :=
  atobModel base64

/-! # Theorems -/

/-! ## C4: AudioScheduler -/

theorem runScheduler_next_le (chunks : List (ℚ × ℚ)) :
    ∀ next : ℚ, (∀ p ∈ chunks, 0 ≤ p.2) → next ≤ (runScheduler next chunks).2 := by
  induction chunks with
  | nil => intro next _; simp [runScheduler]
  | cons hd tl ih =>
    intro next h
    obtain ⟨now, dur⟩ := hd
    have hd0 : (0 : ℚ) ≤ dur := h (now, dur) (List.mem_cons_self _ _)
    have h1 : next ≤ max next now + dur :=
      le_trans (le_max_left _ _) (le_add_of_nonneg_right hd0)
    have h2 := ih (max next now + dur) (fun p hp => h p (List.mem_cons_of_mem _ hp))
    simpa [runScheduler] using le_trans h1 h2

theorem runScheduler_headStart_ge :
    ∀ (chunks : List (ℚ × ℚ)) (next : ℚ) (p : ℚ × ℚ),
      (runScheduler next chunks).1.head? = some p → next ≤ p.1
  | [], _, _, h => by simp [runScheduler] at h
  | (now, dur) :: tl, next, p, h => by
    simp only [runScheduler, List.head?_cons, Option.some.injEq] at h
    rw [← h]
    exact le_max_left _ _

theorem runScheduler_chain (chunks : List (ℚ × ℚ)) :
    ∀ next : ℚ,
      List.Chain' (fun a b : ℚ × ℚ => a.1 + a.2 ≤ b.1) (runScheduler next chunks).1 := by
  induction chunks with
  | nil => intro next; simp [runScheduler]
  | cons hd tl ih =>
    intro next
    obtain ⟨now, dur⟩ := hd
    have hrw : (runScheduler next ((now, dur) :: tl)).1
        = (max next now, dur) :: (runScheduler (max next now + dur) tl).1 := rfl
    rw [hrw]
    refine List.chain'_cons'.mpr ⟨?_, ih _⟩
    intro y hy
    exact runScheduler_headStart_ge tl (max next now + dur) y hy

/-- C4: every chunk is scheduled at `max(nextStartTime, now)` and advances
`nextStartTime` by the chunk's duration, `nextStartTime` never decreases
(per call and across a whole run, for nonnegative durations), successively
scheduled chunks never overlap (each starts no earlier than the previous
start plus the previous duration), and for durations [1.0, 0.5, 2.0]
arriving at clock times [0, 0.1, 3.0] with the clock starting at 0 the
computed start times are [0, 1.0, 3.0]. -/
theorem audioScheduler_correct (chunks : List (ℚ × ℚ)) (next : ℚ)
    (hdur : ∀ p ∈ chunks, 0 ≤ p.2) :
    (∀ n now dur : ℚ, scheduleChunk n now dur = (max n now, max n now + dur))
    ∧ (∀ n now dur : ℚ, 0 ≤ dur → n ≤ (scheduleChunk n now dur).2)
    ∧ next ≤ (runScheduler next chunks).2
    ∧ List.Chain' (fun a b : ℚ × ℚ => a.1 + a.2 ≤ b.1) (runScheduler next chunks).1
    ∧ runScheduler 0 [((0 : ℚ), 1), (1/10, 1/2), (3, 2)]
        = ([((0 : ℚ), 1), (1, 1/2), (3, 2)], 5) := by
  refine ⟨fun _ _ _ => rfl, ?_,
    runScheduler_next_le chunks next hdur, runScheduler_chain chunks next, ?_⟩
  · intro n now dur h0
    simpa [scheduleChunk] using le_trans (le_max_left n now) (le_add_of_nonneg_right h0)
  · norm_num [runScheduler]

/-- Witness for C4 at the concrete chunk list of the claim. -/
theorem audioScheduler_correct_witness :
    (∀ p ∈ [((0 : ℚ), 1), (1/10, 1/2), (3, 2)], 0 ≤ p.2)
    ∧ runScheduler 0 [((0 : ℚ), 1), (1/10, 1/2), (3, 2)]
        = ([((0 : ℚ), 1), (1, 1/2), (3, 2)], 5) := by
  have h := audioScheduler_correct [((0 : ℚ), 1), (1/10, 1/2), (3, 2)] 0 (by norm_num)
  exact ⟨by norm_num, h.2.2.2.2⟩

/-! ## C5: tool-call responses -/

/-- C5 counterexample: a `getFarmingAdvice` tool call whose location argument
is the empty string makes `handleGetAdvice` return `undefined` without
throwing (prologue guard, src/types.ts line 321); the success-path send is
guarded by `if (fc.id && advice)`, so no tool response at all is sent — the
session is left without a response to the open tool call, refuting "sends
exactly one tool response". -/
theorem toolCall_missing_response_counterexample :
    handleGetAdviceImmediateReturn "" = true
    ∧ toolCallResponses (some 7) (.returned none) = []
    ∧ (toolCallResponses (some 7) (.returned none)).length ≠ 1 := by
  exact ⟨rfl, rfl, by decide⟩

/-- C5 amended: when the advice call returns an advice record, exactly one
response carrying its summary is sent with the matching call id; when it
throws, exactly one response carrying the apology is sent; but when it
returns without a record (empty location, superseded or cancelled request)
no response is sent. -/
theorem toolCall_responses_amended (i adv e : Nat) :
    toolCallResponses (some i) (.returned (some adv)) = [{ id := i, payload := .summary adv }]
    ∧ (toolCallResponses (some i) (.returned (some adv))).length = 1
    ∧ toolCallResponses (some i) (.threw e) = [{ id := i, payload := .apology }]
    ∧ (toolCallResponses (some i) (.threw e)).length = 1
    ∧ toolCallResponses (some i) (.returned none) = [] :=
  ⟨rfl, rfl, rfl, rfl, rfl⟩

/-! ## C7: playback controller -/

/-- C7 counterexample: two overlapping `handlePlayAudio` calls (weather, then
market) whose narration requests resolve out of order leave both the market
and the weather slots `playing` simultaneously — the stale continuation of
the superseded weather play performs no freshness check before setting its
slot to playing.  This refutes "at most one playback slot is playing at any
instant" over all reachable states. -/
theorem playback_two_playing_counterexample :
    countPlaying (handlePlayAudioSuccess .weather 2 (handlePlayAudioSuccess .market 1
        (handlePlayAudioStart .market (handlePlayAudioStart .weather
          { playbackStatuses := initialPlaybackStatuses
            activePlaybackSource := none })))).playbackStatuses = 2 := by
  decide

/-- C7 amended: a `play(target)` whose narration resolves with no other play
call in between leaves exactly one slot playing (the target) and every other
slot idle — in particular playing market while weather is playing forces
weather to idle — and `stop()` from any state yields all four slots idle;
but a superseded play whose narration resolves late can set a second slot to
playing. -/
theorem playback_single_slot_amended (s : PlaybackState) (t : AgentType) (src : Nat) :
    countPlaying (handlePlayAudioSuccess t src (handlePlayAudioStart t s)).playbackStatuses = 1
    ∧ getSlot t (handlePlayAudioSuccess t src (handlePlayAudioStart t s)).playbackStatuses
        = .playing
    ∧ (∀ u, u ≠ t →
        getSlot u (handlePlayAudioSuccess t src (handlePlayAudioStart t s)).playbackStatuses
          = .idle)
    ∧ handleStopAudio s
        = { playbackStatuses := initialPlaybackStatuses, activePlaybackSource := none } := by
  refine ⟨?_, ?_, ?_, rfl⟩
  · cases t <;> rfl
  · cases t <;> rfl
  · intro u hu
    cases u <;> cases t <;> first | rfl | exact absurd rfl hu

/-- Witness for C7: playing market while the weather slot is `playing`
leaves exactly one slot playing and the weather slot idle. -/
theorem playback_single_slot_witness :
    countPlaying (handlePlayAudioSuccess .market 1 (handlePlayAudioStart .market
        { playbackStatuses := setSlot .weather .playing initialPlaybackStatuses
          activePlaybackSource := some 0 })).playbackStatuses = 1
    ∧ getSlot .weather (handlePlayAudioSuccess .market 1 (handlePlayAudioStart .market
        { playbackStatuses := setSlot .weather .playing initialPlaybackStatuses
          activePlaybackSource := some 0 })).playbackStatuses = .idle :=
  ⟨(playback_single_slot_amended
      { playbackStatuses := setSlot .weather .playing initialPlaybackStatuses
        activePlaybackSource := some 0 } .market 1).1,
   (playback_single_slot_amended
      { playbackStatuses := setSlot .weather .playing initialPlaybackStatuses
        activePlaybackSource := some 0 } .market 1).2.2.1 .weather (by decide)⟩

/-! ## C8: live session lifecycle -/

/-- C8 counterexample: with a session already open (after `startRecording`
connected session 1), a second `startRecording` call is neither a no-op nor
rejected — it connects a second session and overwrites the stored handle,
leaving two sessions open concurrently. -/
theorem liveSession_double_start_counterexample :
    (startRecordingModel 1 initialRecorderState).isRecording = true
    ∧ (startRecordingModel 1 initialRecorderState).sessionPromise = some 1
    ∧ startRecordingModel 2 (startRecordingModel 1 initialRecorderState)
        ≠ startRecordingModel 1 initialRecorderState
    ∧ (startRecordingModel 2 (startRecordingModel 1 initialRecorderState)).openSessions.length
        = 2 := by
  refine ⟨rfl, rfl, by decide, rfl⟩

/-- C8 amended: `stopRecording` is idempotent, is safe when no session was
ever opened, and always resets the recording and speaking flags; but
`startRecording` performs no already-open check — it connects a new session
and overwrites the stored handle without closing the previous session. -/
theorem liveSession_lifecycle_amended (s : RecorderState) (id : Nat) :
    stopRecordingModel (stopRecordingModel s) = stopRecordingModel s
    ∧ (s.sessionPromise = none →
        stopRecordingModel s = { s with isRecording := false, isAssistantSpeaking := false })
    ∧ (stopRecordingModel s).isRecording = false
    ∧ (stopRecordingModel s).isAssistantSpeaking = false
    ∧ (startRecordingModel id s).openSessions = id :: s.openSessions
    ∧ (startRecordingModel id s).sessionPromise = some id := by
  refine ⟨?_, ?_, ?_, ?_, rfl, rfl⟩
  · cases h : s.sessionPromise <;> simp [stopRecordingModel, h]
  · intro h; simp [stopRecordingModel, h]
  · cases h : s.sessionPromise <;> simp [stopRecordingModel, h]
  · cases h : s.sessionPromise <;> simp [stopRecordingModel, h]

/-- Witness for C8 at the never-opened initial state and session id 5. -/
theorem liveSession_lifecycle_witness :
    stopRecordingModel (stopRecordingModel initialRecorderState)
        = stopRecordingModel initialRecorderState
    ∧ stopRecordingModel initialRecorderState
        = { initialRecorderState with isRecording := false, isAssistantSpeaking := false }
    ∧ (startRecordingModel 5 initialRecorderState).openSessions = [5] :=
  ⟨(liveSession_lifecycle_amended initialRecorderState 5).1,
   (liveSession_lifecycle_amended initialRecorderState 5).2.1 rfl,
   (liveSession_lifecycle_amended initialRecorderState 5).2.2.2.2.1⟩

/-! ## C9: transcript accumulation -/

/-- C9: an output-transcript delta is appended to the last transcript entry
exactly when that entry's speaker is the assistant (the earlier entries are
unchanged and the last entry's text is extended by the delta) and otherwise
starts a new assistant entry; symmetrically an input-transcript delta is
appended to the last entry exactly when its speaker is the user and
otherwise starts a new user entry; on an empty transcript both start a new
entry. -/
theorem transcript_delta_routing (prev : List ConversationMessage) (delta : String) :
    (∀ last, prev.getLast? = some last →
      (last.speaker = .assistant →
          handleOutputTranscription prev delta
            = prev.dropLast ++ [{ speaker := .assistant, text := last.text ++ delta }])
        ∧ (last.speaker ≠ .assistant →
          handleOutputTranscription prev delta
            = prev ++ [{ speaker := .assistant, text := delta }])
        ∧ (last.speaker = .user →
          handleInputTranscription prev delta
            = prev.dropLast ++ [{ speaker := .user, text := last.text ++ delta }])
        ∧ (last.speaker ≠ .user →
          handleInputTranscription prev delta
            = prev ++ [{ speaker := .user, text := delta }]))
    ∧ (prev.getLast? = none →
      handleOutputTranscription prev delta = prev ++ [{ speaker := .assistant, text := delta }]
        ∧ handleInputTranscription prev delta = prev ++ [{ speaker := .user, text := delta }]) := by
  constructor
  · intro last hlast
    refine ⟨?_, ?_, ?_, ?_⟩ <;> intro hsp <;>
      simp [handleOutputTranscription, handleInputTranscription, transcriptAppend, hlast, hsp]
  · intro hlast
    exact ⟨by simp [handleOutputTranscription, transcriptAppend, hlast],
      by simp [handleInputTranscription, transcriptAppend, hlast]⟩

/-- Witness for C9: appending an output delta after an assistant entry
extends it; appending an input delta after an assistant entry starts a new
user entry. -/
theorem transcript_delta_routing_witness :
    handleOutputTranscription [{ speaker := .assistant, text := "Hi" }] "!"
        = [{ speaker := .assistant, text := "Hi!" }]
    ∧ handleInputTranscription [{ speaker := .assistant, text := "Hi" }] "?"
        = [{ speaker := .assistant, text := "Hi" }, { speaker := .user, text := "?" }] := by
  have h1 := (transcript_delta_routing [{ speaker := .assistant, text := "Hi" }] "!").1
      { speaker := .assistant, text := "Hi" } rfl
  have h2 := (transcript_delta_routing [{ speaker := .assistant, text := "Hi" }] "?").1
      { speaker := .assistant, text := "Hi" } rfl
  exact ⟨by simpa using h1.1 rfl, by simpa using h2.2.2.2 (by decide)⟩

/-! ## C10: base64 round trip -/

theorem charToSixbit_sixbitToChar : ∀ n < 64, charToSixbit (sixbitToChar n) = n := by
  decide

theorem sixbitToChar_ne_pad : ∀ n < 64, sixbitToChar n ≠ '=' := by
  decide

theorem atobModel_btoaModel :
    ∀ l : List Nat, (∀ b ∈ l, b < 256) → atobModel (btoaModel l) = l
  | [], _ => rfl
  | [a], h => by
    have ha : a < 256 := h a (by simp)
    have h1 : a / 4 < 64 := by omega
    have h2 : a % 4 * 16 < 64 := by omega
    simp only [btoaModel, atobModel]
    rw [charToSixbit_sixbitToChar _ h1, charToSixbit_sixbitToChar _ h2]
    have e1 : a / 4 * 4 + a % 4 * 16 / 16 = a := by omega
    rw [e1]
    exact if_pos trivial
  | [a, b], h => by
    have ha : a < 256 := h a (by simp)
    have hb : b < 256 := h b (by simp)
    have h1 : a / 4 < 64 := by omega
    have h2 : a % 4 * 16 + b / 16 < 64 := by omega
    have h3 : b % 16 * 4 < 64 := by omega
    simp only [btoaModel, atobModel]
    rw [if_neg (sixbitToChar_ne_pad _ h3)]
    rw [charToSixbit_sixbitToChar _ h1, charToSixbit_sixbitToChar _ h2,
      charToSixbit_sixbitToChar _ h3]
    have e1 : a / 4 * 4 + (a % 4 * 16 + b / 16) / 16 = a := by omega
    have e2 : (a % 4 * 16 + b / 16) % 16 * 16 + b % 16 * 4 / 4 = b := by omega
    rw [e1, e2]
    exact if_pos trivial
  | a :: b :: c :: rest, h => by
    have ha : a < 256 := h a (by simp)
    have hb : b < 256 := h b (by simp)
    have hc : c < 256 := h c (by simp)
    have h1 : a / 4 < 64 := by omega
    have h2 : a % 4 * 16 + b / 16 < 64 := by omega
    have h3 : b % 16 * 4 + c / 64 < 64 := by omega
    have h4 : c % 64 < 64 := by omega
    have ih := atobModel_btoaModel rest (fun x hx => h x (by simp [hx]))
    simp only [btoaModel, atobModel]
    rw [if_neg (sixbitToChar_ne_pad _ h3), if_neg (sixbitToChar_ne_pad _ h4)]
    rw [charToSixbit_sixbitToChar _ h1, charToSixbit_sixbitToChar _ h2,
      charToSixbit_sixbitToChar _ h3, charToSixbit_sixbitToChar _ h4]
    rw [ih]
    have e1 : a / 4 * 4 + (a % 4 * 16 + b / 16) / 16 = a := by omega
    have e2 : (a % 4 * 16 + b / 16) % 16 * 16 + (b % 16 * 4 + c / 64) / 4 = b := by omega
    have e3 : (b % 16 * 4 + c / 64) % 4 * 64 + c % 64 = c := by omega
    rw [e1, e2, e3]

/-- C10: decoding the base64 transport encoding of a byte array returns the
byte array exactly: `decode (encode b) = b` for every list of bytes. -/
theorem base64_decode_encode (bytes : List Nat) (h : ∀ b ∈ bytes, b < 256) :
    decode (encode bytes) = bytes :=
  atobModel_btoaModel bytes h

/-- Witness for C10 at a five-byte input (exercising the two-byte padded
final group). -/
theorem base64_decode_encode_witness :
    (∀ b ∈ [72, 105, 33, 255, 0], b < 256)
    ∧ decode (encode [72, 105, 33, 255, 0]) = [72, 105, 33, 255, 0] :=
  ⟨by decide, base64_decode_encode [72, 105, 33, 255, 0] (by decide)⟩

/-! ## C1: cancellation suppresses stale continuations -/

theorem applyEv_segA_aborted {a : SegAct} (hne : a ≠ SegAct.reqInit) {s : Sys}
    (hA : s.abortedA = true) : applyEv (.seg .A a) s = s := by
  cases a <;> first
    | exact absurd rfl hne
    | simp [applyEv, Sys.aborted, hA]

theorem applyEv_segA_preserves_abortedB {a : SegAct} (hne : a ≠ SegAct.reqInit) (s : Sys) :
    (applyEv (.seg .A a) s).abortedB = s.abortedB := by
  cases a <;> first
    | exact absurd rfl hne
    | (simp only [applyEv]; split <;> rfl)

theorem applyEv_preserves_abortedA (e : Ev) (s : Sys) (hA : s.abortedA = true) :
    (applyEv e s).abortedA = true := by
  cases e with
  | seg t a =>
    cases a <;> cases t <;>
      simp only [applyEv, Sys.abort, Sys.aborted] <;>
      first
        | exact hA
        | rfl
        | (split <;> exact hA)
  | cancel t => cases t <;> simp [applyEv, Sys.abort, hA]

theorem applyEv_reqInitB_eq {s1 s2 : Sys} (h : s1.abortedB = s2.abortedB) :
    applyEv (.seg .B .reqInit) s1 = applyEv (.seg .B .reqInit) s2 := by
  simp [applyEv, Sys.abort, h]

theorem runEvs_stale_noop : ∀ acts : List SegAct, SegAct.reqInit ∉ acts → ∀ s : Sys,
    s.abortedA = true → runEvs (acts.map (Ev.seg .A)) s = s
  | [], _, _, _ => rfl
  | a :: rest, hne, s, hA => by
    have ha : a ≠ SegAct.reqInit := fun h => hne (by simp [h])
    have hrest : SegAct.reqInit ∉ rest := fun h => hne (by simp [h])
    have h1 : applyEv (.seg .A a) s = s := applyEv_segA_aborted ha hA
    simp only [List.map_cons, runEvs, h1]
    exact runEvs_stale_noop rest hrest s hA

theorem runEvs_interleave_stale : ∀ {aEvs bEvs zs : List Ev}, Interleave aEvs bEvs zs →
    (∀ e ∈ aEvs, isAContinuation e) → ∀ s : Sys, s.abortedA = true →
    runEvs zs s = runEvs bEvs s := by
  intro aEvs bEvs zs hil
  induction hil with
  | nil => intro _ s _; rfl
  | left h ih =>
    rename_i x xs ys zs'
    intro hA s hs
    obtain ⟨a, rfl, hane⟩ := hA x (List.mem_cons_self _ _)
    have h1 : applyEv (.seg .A a) s = s := applyEv_segA_aborted hane hs
    simp only [runEvs, h1]
    exact ih (fun e he => hA e (List.mem_cons_of_mem _ he)) s hs
  | right h ih =>
    rename_i y xs ys zs'
    intro hA s hs
    simp only [runEvs]
    exact ih hA (applyEv y s) (applyEv_preserves_abortedA y s hs)

theorem runEvs_supersede : ∀ {aEvs ys zs : List Ev}, Interleave aEvs ys zs →
    (∀ e ∈ aEvs, isAContinuation e) →
    ∀ bEvs : List Ev, ys = Ev.seg .B .reqInit :: bEvs →
    ∀ s : Sys, runEvs zs s = runEvs ys s := by
  intro aEvs ys zs hil
  induction hil with
  | nil => intro _ bEvs hys s; cases hys
  | left h ih =>
    rename_i x xs ys zs'
    intro hA bEvs hys s
    obtain ⟨a, rfl, hane⟩ := hA x (List.mem_cons_self _ _)
    simp only [runEvs]
    rw [ih (fun e he => hA e (List.mem_cons_of_mem _ he)) bEvs hys (applyEv (.seg .A a) s)]
    subst hys
    simp only [runEvs]
    rw [applyEv_reqInitB_eq (applyEv_segA_preserves_abortedB hane s)]
  | right h ih =>
    rename_i y xs ys zs'
    intro hA bEvs hys s
    obtain ⟨rfl, rfl⟩ : y = Ev.seg .B .reqInit ∧ ys = bEvs := by
      injection hys with h1 h2; exact ⟨h1, h2⟩
    simp only [runEvs]
    have habort : (applyEv (.seg .B .reqInit) s).abortedA = true := by
      simp [applyEv, Sys.abort]
    exact runEvs_interleave_stale h hA (applyEv (.seg .B .reqInit) s) habort

/-- C1: once a request's cancellation token has been invalidated, none of its
continuation segments performs any further visible state change — running
any list of the request's guarded continuation segments (success or failure
completions alike) from any state whose token is aborted leaves the system
state unchanged; and when a newer request B supersedes a still-running
request A, every event-loop interleaving of A's remaining continuations with
B's event sequence yields exactly the state that B's events alone yield, so
only B's statuses appear in the final snapshot. -/
theorem stale_request_suppressed
    (acts : List SegAct) (hne : SegAct.reqInit ∉ acts)
    (s : Sys) (hA : s.abortedA = true)
    (bEvs zs : List Ev)
    (hil : Interleave (acts.map (Ev.seg .A)) (Ev.seg .B .reqInit :: bEvs) zs) :
    runEvs (acts.map (Ev.seg .A)) s = s
    ∧ ∀ s0 : Sys, runEvs zs s0 = runEvs (Ev.seg .B .reqInit :: bEvs) s0 := by
  refine ⟨runEvs_stale_noop acts hne s hA, ?_⟩
  intro s0
  refine runEvs_supersede hil ?_ bEvs rfl s0
  intro e he
  obtain ⟨a, ha, rfl⟩ := List.mem_map.mp he
  exact ⟨a, rfl, fun hinit => hne (hinit ▸ ha)⟩

/-- Witness for C1: a late weather completion of an aborted request changes
nothing, and an interleaving of that completion with a fresh request B
produces exactly B's snapshot. -/
theorem stale_request_suppressed_witness :
    SegAct.reqInit ∉ [SegAct.wForecastDone 5]
    ∧ runEvs ([SegAct.wForecastDone 5].map (Ev.seg .A))
        { app := startRequestApp, abortedA := true, abortedB := false }
        = { app := startRequestApp, abortedA := true, abortedB := false }
    ∧ runEvs [Ev.seg .A (SegAct.wForecastDone 5), Ev.seg .B SegAct.reqInit,
          Ev.seg .B SegAct.wForecastWorking] idleSys
        = runEvs [Ev.seg .B SegAct.reqInit, Ev.seg .B SegAct.wForecastWorking] idleSys := by
  have h := stale_request_suppressed [SegAct.wForecastDone 5] (by decide)
      { app := startRequestApp, abortedA := true, abortedB := false } rfl
      [Ev.seg .B SegAct.wForecastWorking]
      [Ev.seg .A (SegAct.wForecastDone 5), Ev.seg .B SegAct.reqInit,
        Ev.seg .B SegAct.wForecastWorking]
      (Interleave.left (Interleave.right (Interleave.right Interleave.nil)))
  exact ⟨by decide, h.1, h.2 idleSys⟩

/-! ## C2: failure of one pipeline and the final snapshot -/

/-- C2 at the failing input: the weather fetch rejects while the soil and
market fetches are still in flight.  The catch block writes the all-error
snapshot and the error banner, but — because the failure path never aborts
the request's token — the surviving soil and market continuations pass their
token checks and overwrite their pipelines back to done.  The settled final
snapshot therefore has soil and market fully done, contradicting the claimed
final state in which all three pipelines and every sub-phase are error. -/
theorem failure_does_not_mark_all_error :
    (runEvs failureClobberSchedule idleSys).app.agentStatuses
      = { weather := { main := .error, subAgents := { forecast := .error, alerts := .error } }
          soil := { main := .done
                    subAgents := { nutrients := .done, ph_moisture := .done, type := .done } }
          market := { main := .done, subAgents := { prices := .done, exportMarkets := .done } }
          planner := .error }
    ∧ (runEvs failureClobberSchedule idleSys).app.errorBanner = some 0
    ∧ (runEvs failureClobberSchedule idleSys).app.agentStatuses.soil.main ≠ .error
    ∧ (runEvs failureClobberSchedule idleSys).app.agentStatuses ≠ allErrorStatuses := by
  decide

/-! ## C6: synthesis failure marks everything, not just the planner -/

/-- C6 counterexample: in a run where all three pipeline fetches succeed and
only the final synthesis call fails, the weather pipeline's main status ends
as error, not done — the catch-all failure handler marks all pipelines, so
the pipelines do not "remain done" as claimed. -/
theorem synthesis_failure_counterexample :
    (runEvs (synthesisFailureSchedule 1 2 3 7) idleSys).app.agentStatuses.weather.main = .error
    ∧ (runEvs (synthesisFailureSchedule 1 2 3 7) idleSys).app.agentStatuses.weather.main ≠ .done
    ∧ (runEvs (synthesisFailureSchedule 1 2 3 7) idleSys).app.agentStatuses.soil.main ≠ .done
    ∧ (runEvs (synthesisFailureSchedule 1 2 3 7) idleSys).app.agentStatuses.planner = .error := by
  decide

/-- C6 amended: when all three pipeline fetches succeed and the synthesis
call fails, the single catch-all failure handler marks all three pipelines
(every sub-phase included) and the planner to error and sets the error
banner; no advice is stored and loading ends. -/
theorem synthesis_failure_marks_all_error (vw vs vm r : Nat) :
    (runEvs (synthesisFailureSchedule vw vs vm r) idleSys).app.agentStatuses = allErrorStatuses
    ∧ (runEvs (synthesisFailureSchedule vw vs vm r) idleSys).app.errorBanner = some r
    ∧ (runEvs (synthesisFailureSchedule vw vs vm r) idleSys).app.finalAdvice = none
    ∧ (runEvs (synthesisFailureSchedule vw vs vm r) idleSys).app.isLoading = false := by
  refine ⟨?_, ?_, ?_, ?_⟩ <;>
    simp [synthesisFailureSchedule, weatherSegs, soilSegs, marketSegs, tailSegs, runEvs,
      applyEv, applyAct, Sys.aborted, Sys.abort, idleSys, startRequestApp, cancelledApp,
      resetStateApp, initialAppState, initialAgentStatuses, allErrorStatuses]

/-! ## C3: derived main statuses over reachable states -/

theorem applyEv_segA_active {a : SegAct} (hne : a ≠ SegAct.reqInit) {s : Sys}
    (hA : s.abortedA = false) :
    applyEv (.seg .A a) s = { s with app := applyAct a s.app } := by
  cases a <;> first
    | exact absurd rfl hne
    | simp [applyEv, Sys.aborted, hA]

theorem wq_step {vw k : Nat} {a : SegAct} {rest : List SegAct}
    (hk : k ≤ 4) (hq : wqAt vw k = a :: rest) :
    k + 1 ≤ 4 ∧ rest = wqAt vw (k + 1) ∧ a ≠ SegAct.reqInit
      ∧ ∀ s : AppState, s.agentStatuses.weather = wCompAt k →
          (applyAct a s).agentStatuses.weather = wCompAt (k + 1)
          ∧ (applyAct a s).agentStatuses.soil = s.agentStatuses.soil
          ∧ (applyAct a s).agentStatuses.market = s.agentStatuses.market := by
  interval_cases k <;> simp only [wqAt] at hq <;>
    first
      | (injection hq with h1 h2
         subst h1; subst h2
         refine ⟨by omega, rfl, by simp, fun s hc => ⟨?_, rfl, rfl⟩⟩
         simp [applyAct, hc, wCompAt])
      | exact absurd hq (by simp)

theorem sq_step {vs k : Nat} {a : SegAct} {rest : List SegAct}
    (hk : k ≤ 7) (hq : sqAt vs k = a :: rest) :
    k + 1 ≤ 7 ∧ rest = sqAt vs (k + 1) ∧ a ≠ SegAct.reqInit
      ∧ ∀ s : AppState, s.agentStatuses.soil = sCompAt k →
          (applyAct a s).agentStatuses.soil = sCompAt (k + 1)
          ∧ (applyAct a s).agentStatuses.weather = s.agentStatuses.weather
          ∧ (applyAct a s).agentStatuses.market = s.agentStatuses.market := by
  interval_cases k <;> simp only [sqAt] at hq <;>
    first
      | (injection hq with h1 h2
         subst h1; subst h2
         refine ⟨by omega, rfl, by simp, fun s hc => ⟨?_, rfl, rfl⟩⟩
         simp [applyAct, hc, sCompAt])
      | exact absurd hq (by simp)

theorem mq_step {vm k : Nat} {a : SegAct} {rest : List SegAct}
    (hk : k ≤ 5) (hq : mqAt vm k = a :: rest) :
    k + 1 ≤ 5 ∧ rest = mqAt vm (k + 1) ∧ a ≠ SegAct.reqInit
      ∧ ∀ s : AppState, s.agentStatuses.market = mCompAt k →
          (applyAct a s).agentStatuses.market = mCompAt (k + 1)
          ∧ (applyAct a s).agentStatuses.weather = s.agentStatuses.weather
          ∧ (applyAct a s).agentStatuses.soil = s.agentStatuses.soil := by
  interval_cases k <;> simp only [mqAt] at hq <;>
    first
      | (injection hq with h1 h2
         subst h1; subst h2
         refine ⟨by omega, rfl, by simp, fun s hc => ⟨?_, rfl, rfl⟩⟩
         simp [applyAct, hc, mCompAt])
      | exact absurd hq (by simp)

theorem tq_step {va k : Nat} {a : SegAct} {rest : List SegAct}
    (hk : k ≤ 3) (hq : tqAt va k = a :: rest) :
    k + 1 ≤ 3 ∧ rest = tqAt va (k + 1) ∧ a ≠ SegAct.reqInit
      ∧ ∀ s : AppState,
          (applyAct a s).agentStatuses.weather = s.agentStatuses.weather
          ∧ (applyAct a s).agentStatuses.soil = s.agentStatuses.soil
          ∧ (applyAct a s).agentStatuses.market = s.agentStatuses.market := by
  interval_cases k <;> simp only [tqAt] at hq <;>
    first
      | (injection hq with h1 h2
         subst h1; subst h2
         exact ⟨by omega, rfl, by simp, fun s => ⟨rfl, rfl, rfl⟩⟩)
      | exact absurd hq (by simp)

theorem confInv_step {vw vs vm va : Nat} {c c' : Conf} (hstep : OrchStep c c')
    (inv : ConfInv vw vs vm va c) : ConfInv vw vs vm va c' := by
  cases hstep with
  | weatherStep a rest hq =>
    rcases inv with ⟨hA, happ, ⟨kw, hkw, hwq⟩, hsq, hmq, htq⟩
      | ⟨hA, ⟨kw, hkw, hwq, hwc⟩, ⟨ks, hks, hsq, hsc⟩, ⟨km, hkm, hmq, hmc⟩, htq⟩
    · obtain ⟨hk1, hrest, hne, _⟩ := wq_step hkw (hwq.symm.trans hq)
      have hsys : applyEv (.seg .A a) c.sys = c.sys := applyEv_segA_aborted hne hA
      left
      refine ⟨?_, ?_, ⟨kw + 1, hk1, hrest⟩, hsq, hmq, htq⟩
      · show (applyEv (.seg .A a) c.sys).abortedA = true
        rw [hsys]; exact hA
      · show (applyEv (.seg .A a) c.sys).app = cancelledApp
        rw [hsys]; exact happ
    · obtain ⟨hk1, hrest, hne, hcomp⟩ := wq_step hkw (hwq.symm.trans hq)
      have hsys : applyEv (.seg .A a) c.sys = { c.sys with app := applyAct a c.sys.app } :=
        applyEv_segA_active hne hA
      obtain ⟨hw', hsoil', hmarket'⟩ := hcomp c.sys.app hwc
      right
      refine ⟨?_, ⟨kw + 1, hk1, hrest, ?_⟩, ⟨ks, hks, hsq, ?_⟩, ⟨km, hkm, hmq, ?_⟩, htq⟩
      · show (applyEv (.seg .A a) c.sys).abortedA = false
        rw [hsys]; exact hA
      · show (applyEv (.seg .A a) c.sys).app.agentStatuses.weather = wCompAt (kw + 1)
        rw [hsys]; exact hw'
      · show (applyEv (.seg .A a) c.sys).app.agentStatuses.soil = sCompAt ks
        rw [hsys]; exact hsoil'.trans hsc
      · show (applyEv (.seg .A a) c.sys).app.agentStatuses.market = mCompAt km
        rw [hsys]; exact hmarket'.trans hmc
  | soilStep a rest hq =>
    rcases inv with ⟨hA, happ, hwq, ⟨ks, hks, hsq⟩, hmq, htq⟩
      | ⟨hA, ⟨kw, hkw, hwq, hwc⟩, ⟨ks, hks, hsq, hsc⟩, ⟨km, hkm, hmq, hmc⟩, htq⟩
    · obtain ⟨hk1, hrest, hne, _⟩ := sq_step hks (hsq.symm.trans hq)
      have hsys : applyEv (.seg .A a) c.sys = c.sys := applyEv_segA_aborted hne hA
      left
      refine ⟨?_, ?_, hwq, ⟨ks + 1, hk1, hrest⟩, hmq, htq⟩
      · show (applyEv (.seg .A a) c.sys).abortedA = true
        rw [hsys]; exact hA
      · show (applyEv (.seg .A a) c.sys).app = cancelledApp
        rw [hsys]; exact happ
    · obtain ⟨hk1, hrest, hne, hcomp⟩ := sq_step hks (hsq.symm.trans hq)
      have hsys : applyEv (.seg .A a) c.sys = { c.sys with app := applyAct a c.sys.app } :=
        applyEv_segA_active hne hA
      obtain ⟨hs', hweather', hmarket'⟩ := hcomp c.sys.app hsc
      right
      refine ⟨?_, ⟨kw, hkw, hwq, ?_⟩, ⟨ks + 1, hk1, hrest, ?_⟩, ⟨km, hkm, hmq, ?_⟩, htq⟩
      · show (applyEv (.seg .A a) c.sys).abortedA = false
        rw [hsys]; exact hA
      · show (applyEv (.seg .A a) c.sys).app.agentStatuses.weather = wCompAt kw
        rw [hsys]; exact hweather'.trans hwc
      · show (applyEv (.seg .A a) c.sys).app.agentStatuses.soil = sCompAt (ks + 1)
        rw [hsys]; exact hs'
      · show (applyEv (.seg .A a) c.sys).app.agentStatuses.market = mCompAt km
        rw [hsys]; exact hmarket'.trans hmc
  | marketStep a rest hq =>
    rcases inv with ⟨hA, happ, hwq, hsq, ⟨km, hkm, hmq⟩, htq⟩
      | ⟨hA, ⟨kw, hkw, hwq, hwc⟩, ⟨ks, hks, hsq, hsc⟩, ⟨km, hkm, hmq, hmc⟩, htq⟩
    · obtain ⟨hk1, hrest, hne, _⟩ := mq_step hkm (hmq.symm.trans hq)
      have hsys : applyEv (.seg .A a) c.sys = c.sys := applyEv_segA_aborted hne hA
      left
      refine ⟨?_, ?_, hwq, hsq, ⟨km + 1, hk1, hrest⟩, htq⟩
      · show (applyEv (.seg .A a) c.sys).abortedA = true
        rw [hsys]; exact hA
      · show (applyEv (.seg .A a) c.sys).app = cancelledApp
        rw [hsys]; exact happ
    · obtain ⟨hk1, hrest, hne, hcomp⟩ := mq_step hkm (hmq.symm.trans hq)
      have hsys : applyEv (.seg .A a) c.sys = { c.sys with app := applyAct a c.sys.app } :=
        applyEv_segA_active hne hA
      obtain ⟨hm', hweather', hsoil'⟩ := hcomp c.sys.app hmc
      right
      refine ⟨?_, ⟨kw, hkw, hwq, ?_⟩, ⟨ks, hks, hsq, ?_⟩, ⟨km + 1, hk1, hrest, ?_⟩, htq⟩
      · show (applyEv (.seg .A a) c.sys).abortedA = false
        rw [hsys]; exact hA
      · show (applyEv (.seg .A a) c.sys).app.agentStatuses.weather = wCompAt kw
        rw [hsys]; exact hweather'.trans hwc
      · show (applyEv (.seg .A a) c.sys).app.agentStatuses.soil = sCompAt ks
        rw [hsys]; exact hsoil'.trans hsc
      · show (applyEv (.seg .A a) c.sys).app.agentStatuses.market = mCompAt (km + 1)
        rw [hsys]; exact hm'
  | tailStep a rest hw0 hs0 hm0 hq =>
    rcases inv with ⟨hA, happ, hwq, hsq, hmq, ⟨kt, hkt, htq⟩⟩
      | ⟨hA, ⟨kw, hkw, hwq, hwc⟩, ⟨ks, hks, hsq, hsc⟩, ⟨km, hkm, hmq, hmc⟩, ⟨kt, hkt, htq⟩⟩
    · obtain ⟨hk1, hrest, hne, _⟩ := tq_step hkt (htq.symm.trans hq)
      have hsys : applyEv (.seg .A a) c.sys = c.sys := applyEv_segA_aborted hne hA
      left
      refine ⟨?_, ?_, hwq, hsq, hmq, ⟨kt + 1, hk1, hrest⟩⟩
      · show (applyEv (.seg .A a) c.sys).abortedA = true
        rw [hsys]; exact hA
      · show (applyEv (.seg .A a) c.sys).app = cancelledApp
        rw [hsys]; exact happ
    · obtain ⟨hk1, hrest, hne, hcomp⟩ := tq_step hkt (htq.symm.trans hq)
      have hsys : applyEv (.seg .A a) c.sys = { c.sys with app := applyAct a c.sys.app } :=
        applyEv_segA_active hne hA
      obtain ⟨hweather', hsoil', hmarket'⟩ := hcomp c.sys.app
      right
      refine ⟨?_, ⟨kw, hkw, hwq, ?_⟩, ⟨ks, hks, hsq, ?_⟩, ⟨km, hkm, hmq, ?_⟩,
        ⟨kt + 1, hk1, hrest⟩⟩
      · show (applyEv (.seg .A a) c.sys).abortedA = false
        rw [hsys]; exact hA
      · show (applyEv (.seg .A a) c.sys).app.agentStatuses.weather = wCompAt kw
        rw [hsys]; exact hweather'.trans hwc
      · show (applyEv (.seg .A a) c.sys).app.agentStatuses.soil = sCompAt ks
        rw [hsys]; exact hsoil'.trans hsc
      · show (applyEv (.seg .A a) c.sys).app.agentStatuses.market = mCompAt km
        rw [hsys]; exact hmarket'.trans hmc
  | cancelStep =>
    have hqs : QueuesWF vw vs vm va c := by
      rcases inv with ⟨_, _, hwq, hsq, hmq, htq⟩
        | ⟨_, ⟨kw, hkw, hwq, _⟩, ⟨ks, hks, hsq, _⟩, ⟨km, hkm, hmq, _⟩, htq⟩
      · exact ⟨hwq, hsq, hmq, htq⟩
      · exact ⟨⟨kw, hkw, hwq⟩, ⟨ks, hks, hsq⟩, ⟨km, hkm, hmq⟩, htq⟩
    left
    refine ⟨?_, ?_, hqs⟩
    · show (applyEv (.cancel .A) c.sys).abortedA = true
      simp [applyEv, Sys.abort]
    · show (applyEv (.cancel .A) c.sys).app = cancelledApp
      rfl

theorem confInv_reachable {vw vs vm va : Nat} {c : Conf}
    (h : OrchReachable vw vs vm va c) : ConfInv vw vs vm va c := by
  have h' : Relation.ReflTransGen OrchStep (initConf vw vs vm va) c := h
  clear h
  induction h' with
  | refl =>
    right
    exact ⟨rfl, ⟨0, by omega, rfl, rfl⟩, ⟨0, by omega, rfl, rfl⟩, ⟨0, by omega, rfl, rfl⟩,
      ⟨0, by omega, rfl⟩⟩
  | tail hsteps hstep ih => exact confInv_step hstep ih

/-- C3 counterexample: the state reached immediately after the synchronous
prologue of a request is a reachable state of the status tracker in which
all of the weather pipeline's phases are still idle yet its main status is
already working — the prologue sets the three mains to working before any
phase starts, so main is not "idle until the first phase starts" as the
claimed derivation requires. -/
theorem statusTracker_claimed_counterexample :
    OrchReachable 0 0 0 0 (initConf 0 0 0 0)
    ∧ (initConf 0 0 0 0).sys.app.agentStatuses.weather.subAgents.forecast = .idle
    ∧ (initConf 0 0 0 0).sys.app.agentStatuses.weather.subAgents.alerts = .idle
    ∧ (initConf 0 0 0 0).sys.app.agentStatuses.weather.main = .working
    ∧ ¬ claimedDerivedMain2 (initConf 0 0 0 0).sys.app.agentStatuses.weather.main
        (initConf 0 0 0 0).sys.app.agentStatuses.weather.subAgents.forecast
        (initConf 0 0 0 0).sys.app.agentStatuses.weather.subAgents.alerts :=
  ⟨Relation.ReflTransGen.refl, rfl, rfl, rfl, by decide⟩

/-- C3 amended: in every reachable state of the status tracker during a
request whose external calls succeed (with cancellation allowed at any
point), each pipeline's main status satisfies the derivation with the idle
clause dropped: main is working whenever any phase is working, main is done
exactly when all of the pipeline's phases are done, and main is error
whenever any phase is error — but main is set to working at request start,
before the first phase starts, rather than staying idle. -/
theorem statusTracker_derivedMain_amended (vw vs vm va : Nat) (c : Conf)
    (h : OrchReachable vw vs vm va c) :
    amendedDerivedMain2 c.sys.app.agentStatuses.weather.main
        c.sys.app.agentStatuses.weather.subAgents.forecast
        c.sys.app.agentStatuses.weather.subAgents.alerts
    ∧ amendedDerivedMain3 c.sys.app.agentStatuses.soil.main
        c.sys.app.agentStatuses.soil.subAgents.nutrients
        c.sys.app.agentStatuses.soil.subAgents.ph_moisture
        c.sys.app.agentStatuses.soil.subAgents.type
    ∧ amendedDerivedMain2 c.sys.app.agentStatuses.market.main
        c.sys.app.agentStatuses.market.subAgents.prices
        c.sys.app.agentStatuses.market.subAgents.exportMarkets := by
  have inv := confInv_reachable h
  rcases inv with ⟨_, happ, _⟩
    | ⟨_, ⟨kw, hkw, _, hwc⟩, ⟨ks, hks, _, hsc⟩, ⟨km, hkm, _, hmc⟩, _⟩
  · rw [happ]
    decide
  · rw [hwc, hsc, hmc]
    have h2 : ∀ k ≤ 4, amendedDerivedMain2 (wCompAt k).main
        (wCompAt k).subAgents.forecast (wCompAt k).subAgents.alerts := by decide
    have h3 : ∀ k ≤ 7, amendedDerivedMain3 (sCompAt k).main
        (sCompAt k).subAgents.nutrients (sCompAt k).subAgents.ph_moisture
        (sCompAt k).subAgents.type := by decide
    have h4 : ∀ k ≤ 5, amendedDerivedMain2 (mCompAt k).main
        (mCompAt k).subAgents.prices (mCompAt k).subAgents.exportMarkets := by decide
    exact ⟨h2 kw hkw, h3 ks hks, h4 km hkm⟩

/-- Witness for C3 at the request-start configuration. -/
theorem statusTracker_derivedMain_witness :
    amendedDerivedMain2 (initConf 0 0 0 0).sys.app.agentStatuses.weather.main
        (initConf 0 0 0 0).sys.app.agentStatuses.weather.subAgents.forecast
        (initConf 0 0 0 0).sys.app.agentStatuses.weather.subAgents.alerts
    ∧ amendedDerivedMain3 (initConf 0 0 0 0).sys.app.agentStatuses.soil.main
        (initConf 0 0 0 0).sys.app.agentStatuses.soil.subAgents.nutrients
        (initConf 0 0 0 0).sys.app.agentStatuses.soil.subAgents.ph_moisture
        (initConf 0 0 0 0).sys.app.agentStatuses.soil.subAgents.type
    ∧ amendedDerivedMain2 (initConf 0 0 0 0).sys.app.agentStatuses.market.main
        (initConf 0 0 0 0).sys.app.agentStatuses.market.subAgents.prices
        (initConf 0 0 0 0).sys.app.agentStatuses.market.subAgents.exportMarkets :=
  statusTracker_derivedMain_amended 0 0 0 0 (initConf 0 0 0 0) Relation.ReflTransGen.refl

end KisaanMitra
